import Mathlib

/-!
Shallow embedding of `openwrt-network-monitor` (`src/net_util/mod.rs` and
`src/main.rs`): a parser for the output of the external `ip neigh` command,
plus the process-invocation wrapper around it.

Strings are modelled by Lean `String` / `List Char`.  Rust's Unicode-aware
case mapping, whitespace trimming and `char::is_whitespace` are modelled by
their ASCII restrictions (all keyword comparisons in the program are
ASCII-only).  Machine bytes are modelled by `Nat` with explicit range checks.
-/

/-! ## Rust string primitives -/

/-- Model of Rust `str::split(sep)` for a one-character pattern, on the
character list: consecutive separators produce empty pieces, and the result
is never empty (splitting the empty string gives `[[]]`). -/
def splitChar (sep : Char) : List Char → List (List Char)
  | [] => [[]]
  | c :: rest =>
    if c = sep then [] :: splitChar sep rest
    else
      match splitChar sep rest with
      | h :: t => (c :: h) :: t
      | [] => [[c]]

/-- Model of Rust `s.split(sep).collect::<Vec<&str>>()` at the `String` level. -/
def rustSplit (sep : Char) (s : String) : List String :=
  (splitChar sep s.data).map String.mk

/-- Model of Rust `str::to_lowercase` (ASCII restriction). -/
def rustToLowercase (s : String) : String :=
  String.mk (s.data.map Char.toLower)

/-- Model of Rust `str::to_uppercase` (ASCII restriction). -/
def rustToUppercase (s : String) : String :=
  String.mk (s.data.map Char.toUpper)

/-- Model of Rust `str::trim` (ASCII-whitespace restriction). -/
def rustTrim (s : String) : String :=
  String.mk (((s.data.dropWhile Char.isWhitespace).reverse.dropWhile
    Char.isWhitespace).reverse)

/-- Model of Rust `u8::to_ascii_lowercase` on a byte. -/
def asciiLowerByte (b : Nat) : Nat :=
  if 65 ≤ b ∧ b ≤ 90 then b + 32 else b

/-! ## Rust `core::net::parser` — `IpAddr::from_str`

Faithful embedding of the parser the standard library uses for
`IpAddr::from_str`: a backtracking reader over the input characters, where a
failed read returns `none` and the caller keeps its original input
(`read_atomically`). -/

/-- Model of Rust `char::to_digit radix`. -/
def digitValue (radix : Nat) (c : Char) : Option Nat :=
  let v :=
    if '0' ≤ c ∧ c ≤ '9' then some (c.toNat - '0'.toNat)
    else if 'a' ≤ c ∧ c ≤ 'z' then some (c.toNat - 'a'.toNat + 10)
    else if 'A' ≤ c ∧ c ≤ 'Z' then some (c.toNat - 'A'.toNat + 10)
    else none
  match v with
  | some d => if d < radix then some d else none
  | none => none

/-- Digit-consuming loop of Rust `Parser::read_number`: reads digits of the
given radix while they fit in `maxVal` (`checked_mul`/`checked_add` against
the integer type's bound) and aborts once more than `maxDigits` digits were
read.  Returns the value, the digit count and the remaining input. -/
def readNumberAux (radix maxDigits maxVal : Nat) :
    List Char → Nat → Nat → Option (Nat × Nat × List Char)
  | [], count, acc => some (acc, count, [])
  | c :: rest, count, acc =>
    match digitValue radix c with
    | none => some (acc, count, c :: rest)
    | some d =>
      let acc2 := acc * radix + d
      if maxVal < acc2 then none
      else if maxDigits < count + 1 then none
      else readNumberAux radix maxDigits maxVal rest (count + 1) acc2

/-- Model of Rust `Parser::read_number(radix, Some maxDigits, allowZeroPfx)`
instantiated at an unsigned integer type with maximum value `maxVal`. -/
def readNumber (radix maxDigits maxVal : Nat) (allowZeroPfx : Bool)
    (s : List Char) : Option (Nat × List Char) :=
  match readNumberAux radix maxDigits maxVal s 0 0 with
  | none => none
  | some (acc, count, rest) =>
    if count = 0 then none
    else if allowZeroPfx = false ∧ s.head? = some '0' ∧ 1 < count then none
    else some (acc, rest)

/-- Model of Rust `Parser::read_given_char`. -/
def readGivenChar (c : Char) : List Char → Option (List Char)
  | [] => none
  | x :: rest => if x = c then some rest else none

/-- Model of Rust `Parser::read_ipv4_addr`: four decimal octets (at most 3
digits each, value at most 255, no leading zeros) separated by `'.'`. -/
def readIpv4Addr (s : List Char) : Option ((Nat × Nat × Nat × Nat) × List Char) := do
  let (a, s) ← readNumber 10 3 255 false s
  let s ← readGivenChar '.' s
  let (b, s) ← readNumber 10 3 255 false s
  let s ← readGivenChar '.' s
  let (c, s) ← readNumber 10 3 255 false s
  let s ← readGivenChar '.' s
  let (d, s) ← readNumber 10 3 255 false s
  pure ((a, b, c, d), s)

/-- `read_separator ':' i read_ipv4_addr`: a leading `':'` is required for
every group except the first. -/
def readSepIpv4 (i : Nat) (s : List Char) :
    Option ((Nat × Nat × Nat × Nat) × List Char) :=
  if 0 < i then
    match readGivenChar ':' s with
    | none => none
    | some s1 => readIpv4Addr s1
  else readIpv4Addr s

/-- `read_separator ':' i (read_number 16 (some 4) true)`: one 16-bit hex
group, preceded by `':'` for every group except the first. -/
def readHexGroup (i : Nat) (s : List Char) : Option (Nat × List Char) :=
  if 0 < i then
    match readGivenChar ':' s with
    | none => none
    | some s1 => readNumber 16 4 65535 true s1
  else readNumber 16 4 65535 true s

/-- Model of the inner `read_groups` of Rust `Parser::read_ipv6_addr`: reads
up to `limit` colon-separated 16-bit groups (the first argument counts the
groups still allowed, `i` is the index of the next group), where any group
except the last may instead be a trailing embedded IPv4 address contributing
two groups.  Returns the groups read, whether an embedded IPv4 address was
read, and the remaining input. -/
def readGroups : Nat → Nat → List Nat → List Char → (List Nat × Bool × List Char)
  | 0, _, acc, s => (acc.reverse, false, s)
  | n + 1, i, acc, s =>
    match (if 1 ≤ n then readSepIpv4 i s else none) with
    | some ((a, b, c, d), rest) =>
      (acc.reverse ++ [a * 256 + b, c * 256 + d], true, rest)
    | none =>
      match readHexGroup i s with
      | some (g, rest) => readGroups n (i + 1) (g :: acc) rest
      | none => (acc.reverse, false, s)

/-- Model of Rust `Parser::read_ipv6_addr`: either eight groups, or a head,
a literal `"::"`, and a tail of at most `8 - (head + 1)` groups, the gap
filled with zero groups; an embedded IPv4 address may not appear before the
`"::"`.  The result is the list of eight 16-bit groups. -/
def readIpv6Addr (s : List Char) : Option (List Nat × List Char) :=
  match readGroups 8 0 [] s with
  | (head, headIpv4, s1) =>
    if head.length = 8 then some (head, s1)
    else if headIpv4 then none
    else
      match readGivenChar ':' s1 with
      | none => none
      | some s2 =>
        match readGivenChar ':' s2 with
        | none => none
        | some s3 =>
          match readGroups (8 - (head.length + 1)) 0 [] s3 with
          | (tail, _, s4) =>
            some (head ++ List.replicate (8 - head.length - tail.length) 0
              ++ tail, s4)

/-- Model of Rust `std::net::IpAddr`: a parsed IPv4 address (four octets) or
IPv6 address (eight 16-bit groups). -/
inductive IpAddr where
  | V4 (a b c d : Nat)
  | V6 (groups : List Nat)
deriving DecidableEq, Repr

/-- Model of Rust `Parser::read_ip_addr`: IPv4 first, IPv6 otherwise. -/
def readIpAddr (s : List Char) : Option (IpAddr × List Char) :=
  match readIpv4Addr s with
  | some ((a, b, c, d), rest) => some (.V4 a b c d, rest)
  | none =>
    match readIpv6Addr s with
    | some (g, rest) => some (.V6 g, rest)
    | none => none

/-- Model of Rust `IpAddr::from_str` (`Parser::parse_with`): the address must
consume the entire input. -/
def IpAddr.fromStr (s : String) : Option IpAddr :=
  match readIpAddr s.data with
  | some (ip, []) => some ip
  | _ => none

/-! ## Rust `Display` for `IpAddr` (used to state the round-trip property) -/

/-- Decimal dotted-quad rendering of an IPv4 address (Rust
`Ipv4Addr: Display`). -/
def ipv4DisplayStr (a b c d : Nat) : String :=
  Nat.repr a ++ "." ++ Nat.repr b ++ "." ++ Nat.repr c ++ "." ++ Nat.repr d

/-- Colon-separated lowercase-hex rendering of a list of 16-bit groups. -/
def hexSegs (g : List Nat) : String :=
  String.intercalate ":" (g.map (fun n => String.mk (Nat.toDigits 16 n)))

/-- The longest (first, on ties) run of zero groups, as in Rust
`Ipv6Addr: Display`; arguments: remaining groups, current index, longest
span so far, current span (each a start/length pair). -/
def longestZeroRunAux : List Nat → Nat → Nat × Nat → Nat × Nat → Nat × Nat
  | [], _, longest, _ => longest
  | g :: rest, i, (ls, ll), (cs, cl) =>
    if g = 0 then
      let cur : Nat × Nat := (if cl = 0 then i else cs, cl + 1)
      let lng : Nat × Nat := if ll < cur.2 then cur else (ls, ll)
      longestZeroRunAux rest (i + 1) lng cur
    else longestZeroRunAux rest (i + 1) (ls, ll) (0, 0)

/-- Model of Rust `Display` for `IpAddr`: dotted quad for IPv4; for IPv6 the
IPv4-mapped special form, otherwise `"::"`-compression of the longest zero
run when it has length at least 2. -/
def ipAddrToString : IpAddr → String
  | .V4 a b c d => ipv4DisplayStr a b c d
  | .V6 g =>
    match g with
    | [0, 0, 0, 0, 0, 65535, hi, lo] =>
      "::ffff:" ++ ipv4DisplayStr (hi / 256) (hi % 256) (lo / 256) (lo % 256)
    | _ =>
      let zr := longestZeroRunAux g 0 (0, 0) (0, 0)
      if 1 < zr.2 then
        hexSegs (g.take zr.1) ++ "::" ++ hexSegs (g.drop (zr.1 + zr.2))
      else hexSegs g

/-- A token is syntactically canonical when it parses as an IP address whose
display form is the token itself. -/
def canonicalIpString (t : String) : Prop :=
  ∃ ip, IpAddr.fromStr t = some ip ∧ ipAddrToString ip = t

/-! ## `net_util`: NUD states and the line parser -/

/-- Model of `NudState` (src/net_util/mod.rs). -/
inductive NudState where
  | UNKNOWN
  | PERMANENT
  | NOARP
  | REACHABLE
  | STALE
  | NONE
  | INCOMPLETE
  | DELAY
  | PROBE
  | FAILED
deriving DecidableEq, Repr

/-- Model of `parse_nud_from_str`: case-insensitive match of the token
against the nine known state keywords, `UNKNOWN` otherwise. -/
def parse_nud_from_str (nud_state_str : String) : NudState :=
  let u := rustToUppercase nud_state_str
  if u = "PERMANENT" then .PERMANENT
  else if u = "NOARP" then .NOARP
  else if u = "REACHABLE" then .REACHABLE
  else if u = "STALE" then .STALE
  else if u = "NONE" then .NONE
  else if u = "INCOMPLETE" then .INCOMPLETE
  else if u = "DELAY" then .DELAY
  else if u = "PROBE" then .PROBE
  else if u = "FAILED" then .FAILED
  else .UNKNOWN

/-- Model of `ArpTable` (src/net_util/mod.rs). -/
structure ArpTable where
  ip : IpAddr
  iface : String
  mac_addr : String
  nud_state : NudState
deriving DecidableEq, Repr

/-- The `anyhow` error messages `ArpTable::parse_from_string` can produce,
modelled structurally with their payloads:
`"Unexpected string -> {s}"`, `"Failed to parse {tok}: ..."`,
`"No device name found, expected 'dev' but got '{got}'"`,
`"No link layer address found, expected 'lladdr' but got '{got}'"`. -/
inductive ParseError where
  | UnexpectedString (s : String)
  | FailedToParseIp (tok : String)
  | NoDeviceName (got : String)
  | NoLinkLayerAddr (got : String)
deriving DecidableEq, Repr

/-- Model of `ArpTable::parse_from_string`: split on single spaces, require
at least 6 tokens, parse token 0 as an IP address, require token 1 to be
`"dev"` and token 3 to be `"lladdr"` after lowercasing, take token 2
verbatim as the interface, token 4 lowercased as the MAC address, and the
last token as the NUD state. -/
def ArpTable.parse_from_string (s : String) : Except ParseError ArpTable :=
  let sliced_str := rustSplit ' ' s
  if sliced_str.length < 6 then .error (.UnexpectedString s)
  else
    let ip_addr_str := sliced_str.getD 0 ""
    match IpAddr.fromStr ip_addr_str with
    | none => .error (.FailedToParseIp ip_addr_str)
    | some ip_addr =>
      let dev_str := rustToLowercase (sliced_str.getD 1 "")
      if dev_str ≠ "dev" then .error (.NoDeviceName dev_str)
      else
        let dev_name := sliced_str.getD 2 ""
        let link_layer_addr_str := rustToLowercase (sliced_str.getD 3 "")
        if link_layer_addr_str ≠ "lladdr" then
          .error (.NoLinkLayerAddr link_layer_addr_str)
        else
          let mac_address := rustToLowercase (sliced_str.getD 4 "")
          let nud_state := parse_nud_from_str (sliced_str.getLastD "")
          .ok { ip := ip_addr, iface := dev_name, mac_addr := mac_address,
                nud_state := nud_state }

/-! ## UTF-8 decoding (Rust `String::from_utf8`) -/

/-- Model of Rust `String::from_utf8` on a byte list: standard UTF-8
validation (no overlong encodings, no surrogates, code points at most
U+10FFFF), returning the decoded characters or `none`. -/
def utf8Decode : List Nat → Option (List Char)
  | [] => some []
  | b1 :: rest =>
    if b1 < 128 then
      (utf8Decode rest).map (fun cs => Char.ofNat b1 :: cs)
    else if b1 < 194 then none
    else if b1 < 224 then
      match rest with
      | b2 :: rest2 =>
        if 128 ≤ b2 ∧ b2 < 192 then
          (utf8Decode rest2).map
            (fun cs => Char.ofNat ((b1 - 192) * 64 + (b2 - 128)) :: cs)
        else none
      | [] => none
    else if b1 < 240 then
      match rest with
      | b2 :: b3 :: rest2 =>
        if ((if b1 = 224 then 160 else 128) ≤ b2
              ∧ b2 < (if b1 = 237 then 160 else 192))
            ∧ (128 ≤ b3 ∧ b3 < 192) then
          (utf8Decode rest2).map
            (fun cs =>
              Char.ofNat ((b1 - 224) * 4096 + (b2 - 128) * 64 + (b3 - 128)) :: cs)
        else none
      | _ => none
    else if b1 < 245 then
      match rest with
      | b2 :: b3 :: b4 :: rest2 =>
        if ((if b1 = 240 then 144 else 128) ≤ b2
              ∧ b2 < (if b1 = 244 then 144 else 192))
            ∧ (128 ≤ b3 ∧ b3 < 192) ∧ (128 ≤ b4 ∧ b4 < 192) then
          (utf8Decode rest2).map
            (fun cs =>
              Char.ofNat ((b1 - 240) * 262144 + (b2 - 128) * 4096
                + (b3 - 128) * 64 + (b4 - 128)) :: cs)
        else none
      | _ => none
    else none

/-- ASCII encoding of a string, for building concrete command outputs. -/
def encodeAscii (s : String) : List Nat :=
  s.data.map Char.toNat

/-! ## `get_ip_neighbors` -/

/-- The outcome of `Command::new("ip").arg("neigh").output()`: either the
launch failed with an OS error message, or the process ran to completion
with an exit status and captured stdout/stderr byte streams. -/
inductive LaunchResult where
  | launchFailure (errMsg : String)
  | launched (statusSuccess : Bool) (stdoutBytes : List Nat) (stderrBytes : List Nat)

/-- The `anyhow` errors `get_ip_neighbors` can produce, modelled
structurally: `"Failed to execute 'ip' command: {err}"` on launch failure,
`"Command failed {stderr.to_ascii_lowercase():?}"` on non-zero exit, or a
line's parse error passed through. -/
inductive NetError where
  | ExecutionError (msg : String)
  | CommandError (stderrLower : List Nat)
  | LineParseError (e : ParseError)
deriving DecidableEq, Repr

/-- The line filtering of `get_ip_neighbors`: split decoded stdout on
newlines, trim each line, keep the non-empty ones. -/
def filteredLines (stdout : String) : List String :=
  ((rustSplit '\n' stdout).map rustTrim).filter (fun s => !s.isEmpty)

/-- Model of `iter().map(parse_from_string).collect::<Result<Vec<_>>>()`:
parse the lines in order, stopping at the first failing line with its error;
only when every line parses is the ordered record list returned. -/
def collectResults : List String → Except ParseError (List ArpTable)
  | [] => .ok []
  | x :: rest =>
    match ArpTable.parse_from_string x with
    | .error e => .error e
    | .ok r =>
      match collectResults rest with
      | .error e => .error e
      | .ok rs => .ok (r :: rs)

/-- Model of `get_ip_neighbors`, as a function of the external command's
outcome.  The outer `Option` models process abort: `none` is the `expect`
panic on non-UTF-8 stdout; every other path returns `some` of the Rust
function's `Result`. -/
def get_ip_neighbors (res : LaunchResult) :
    Option (Except NetError (List ArpTable)) :=
  match res with
  | .launchFailure msg => some (.error (.ExecutionError msg))
  | .launched ok outB errB =>
    if ok = false then some (.error (.CommandError (errB.map asciiLowerByte)))
    else
      match utf8Decode outB with
      | none => none
      | some chars =>
        some ((collectResults
          (filteredLines (String.mk chars))).mapError NetError.LineParseError)

/-! ## Helper lemmas -/

/-- Inversion of a successful `parse_from_string`: the shape facts the
successful branch guarantees about the line's tokens and the record. -/
theorem parse_from_string_ok_inv (s : String) (r : ArpTable)
    (h : ArpTable.parse_from_string s = .ok r) :
    6 ≤ (rustSplit ' ' s).length ∧
    IpAddr.fromStr ((rustSplit ' ' s).getD 0 "") = some r.ip ∧
    rustToLowercase ((rustSplit ' ' s).getD 1 "") = "dev" ∧
    r.iface = (rustSplit ' ' s).getD 2 "" ∧
    rustToLowercase ((rustSplit ' ' s).getD 3 "") = "lladdr" ∧
    r.mac_addr = rustToLowercase ((rustSplit ' ' s).getD 4 "") ∧
    r.nud_state = parse_nud_from_str ((rustSplit ' ' s).getLastD "") := by
  simp only [ArpTable.parse_from_string] at h
  split at h
  · exact absurd h (by simp)
  · rename_i hlen
    split at h
    · exact absurd h (by simp)
    · rename_i ip hip
      split at h
      · exact absurd h (by simp)
      · rename_i hdev
        split at h
        · exact absurd h (by simp)
        · rename_i hll
          injection h with h
          subst h
          refine ⟨by omega, hip, ?_, rfl, ?_, rfl, rfl⟩
          · simpa using hdev
          · simpa using hll

/-- A successful `collectResults` has one record per line, in order. -/
theorem collectResults_ok_inv (l : List String) (rs : List ArpTable)
    (h : collectResults l = .ok rs) :
    rs.length = l.length ∧
    ∀ i, (l.get? i).map ArpTable.parse_from_string = (rs.get? i).map Except.ok := by
  induction l generalizing rs with
  | nil =>
    simp only [collectResults] at h
    injection h with h
    subst h
    simp
  | cons x rest ih =>
    simp only [collectResults] at h
    cases hx : ArpTable.parse_from_string x with
    | error e => rw [hx] at h; exact absurd h (by simp)
    | ok r =>
      rw [hx] at h
      cases hr : collectResults rest with
      | error e => rw [hr] at h; exact absurd h (by simp)
      | ok rs2 =>
        rw [hr] at h
        injection h with h
        subst h
        obtain ⟨hl, hget⟩ := ih rs2 hr
        refine ⟨by simp [hl], ?_⟩
        intro i
        cases i with
        | zero => simp [hx]
        | succ n => simpa using hget n

/-- `collectResults` fails with the error of the first failing line. -/
theorem collectResults_first_error (l : List String) (i : Nat) (e : ParseError)
    (hi : i < l.length)
    (hok : ∀ j, j < i → ∃ r, ArpTable.parse_from_string (l.getD j "") = .ok r)
    (he : ArpTable.parse_from_string (l.getD i "") = .error e) :
    collectResults l = .error e := by
  induction l generalizing i with
  | nil => simp at hi
  | cons x rest ih =>
    cases i with
    | zero =>
      have hx : ArpTable.parse_from_string x = .error e := by simpa using he
      simp [collectResults, hx]
    | succ n =>
      obtain ⟨r, hr⟩ := hok 0 (Nat.succ_pos n)
      have hx : ArpTable.parse_from_string x = .ok r := by simpa using hr
      have htail : collectResults rest = .error e := by
        refine ih n (by simpa using hi) ?_ (by simpa using he)
        intro j hj
        simpa using hok (j + 1) (Nat.succ_lt_succ hj)
      simp [collectResults, hx, htail]

/-! ## Claim theorems -/

/-- Claim C1: when `get_ip_neighbors` succeeds, the returned sequence has exactly
one record per non-empty trimmed line of the command's standard output, in
the same order as those lines. -/
theorem get_ip_neighbors_one_record_per_line
    (outB errB : List Nat) (chars : List Char) (records : List ArpTable)
    (hdec : utf8Decode outB = some chars)
    (hrun : get_ip_neighbors (.launched true outB errB) = some (.ok records)) :
    records.length = (filteredLines (String.mk chars)).length ∧
    ∀ i, ((filteredLines (String.mk chars)).get? i).map ArpTable.parse_from_string
      = (records.get? i).map Except.ok := by
  simp only [get_ip_neighbors, hdec] at hrun
  rw [if_neg (by simp)] at hrun
  injection hrun with hrun
  cases hc : collectResults (filteredLines (String.mk chars)) with
  | error e => rw [hc] at hrun; exact absurd hrun (by simp [Except.mapError])
  | ok rs =>
    rw [hc] at hrun
    simp only [Except.mapError] at hrun
    injection hrun with hrun
    subst hrun
    exact collectResults_ok_inv _ _ hc

/-- Claim C1 witness: a one-line output yields exactly one record. -/
theorem get_ip_neighbors_one_record_per_line_witness :
    utf8Decode (encodeAscii "1.2.3.4 dev eth0 lladdr AA:BB x STALE\n")
      = some ("1.2.3.4 dev eth0 lladdr AA:BB x STALE\n").data ∧
    ([({ ip := IpAddr.V4 1 2 3 4, iface := "eth0", mac_addr := "aa:bb",
         nud_state := .STALE } : ArpTable)].length
      = (filteredLines (String.mk ("1.2.3.4 dev eth0 lladdr AA:BB x STALE\n").data)).length ∧
     ∀ i, ((filteredLines (String.mk ("1.2.3.4 dev eth0 lladdr AA:BB x STALE\n").data)).get? i).map
            ArpTable.parse_from_string
        = (([({ ip := IpAddr.V4 1 2 3 4, iface := "eth0", mac_addr := "aa:bb",
                nud_state := .STALE } : ArpTable)] : List ArpTable).get? i).map Except.ok) :=
  ⟨by decide,
   get_ip_neighbors_one_record_per_line
     (encodeAscii "1.2.3.4 dev eth0 lladdr AA:BB x STALE\n") []
     ("1.2.3.4 dev eth0 lladdr AA:BB x STALE\n").data
     [{ ip := IpAddr.V4 1 2 3 4, iface := "eth0", mac_addr := "aa:bb",
        nud_state := .STALE }]
     (by decide) (by rfl)⟩

/-- Claim C2: if any non-empty line fails to parse (every earlier line parsing),
`get_ip_neighbors` fails with that line's parse error and returns no
records. -/
theorem get_ip_neighbors_fail_fast
    (outB errB : List Nat) (chars : List Char) (i : Nat) (e : ParseError)
    (hdec : utf8Decode outB = some chars)
    (hi : i < (filteredLines (String.mk chars)).length)
    (hok : ∀ j, j < i → ∃ r,
      ArpTable.parse_from_string ((filteredLines (String.mk chars)).getD j "") = .ok r)
    (he : ArpTable.parse_from_string
      ((filteredLines (String.mk chars)).getD i "") = .error e) :
    get_ip_neighbors (.launched true outB errB)
      = some (.error (.LineParseError e)) := by
  have hc := collectResults_first_error _ i e hi hok he
  simp only [get_ip_neighbors, hdec, hc, Except.mapError]
  rw [if_neg (by simp)]

/-- Claim C2 witness: a two-line output whose first line has an unparseable
address fails with that line's error even though the second line is fine. -/
theorem get_ip_neighbors_fail_fast_witness :
    get_ip_neighbors (.launched true
      (encodeAscii "zzz dev e lladdr m x STALE\n1.2.3.4 dev e lladdr m x STALE") [])
      = some (.error (.LineParseError (.FailedToParseIp "zzz"))) :=
  get_ip_neighbors_fail_fast
    (encodeAscii "zzz dev e lladdr m x STALE\n1.2.3.4 dev e lladdr m x STALE") []
    ("zzz dev e lladdr m x STALE\n1.2.3.4 dev e lladdr m x STALE").data
    0 (.FailedToParseIp "zzz") (by decide) (by decide)
    (fun j hj => absurd hj (Nat.not_lt_zero j)) (by rfl)

/-- Claim C3: a line with at least six tokens, a valid IP in token 0 and `dev`
(case-insensitively) in token 1, whose token 3 is not case-insensitively
`lladdr`, fails with the no-link-layer-address format error. -/
theorem parse_missing_lladdr_fails (s : String) (ip : IpAddr)
    (hlen : 6 ≤ (rustSplit ' ' s).length)
    (hip : IpAddr.fromStr ((rustSplit ' ' s).getD 0 "") = some ip)
    (hdev : rustToLowercase ((rustSplit ' ' s).getD 1 "") = "dev")
    (hll : rustToLowercase ((rustSplit ' ' s).getD 3 "") ≠ "lladdr") :
    ArpTable.parse_from_string s
      = .error (.NoLinkLayerAddr (rustToLowercase ((rustSplit ' ' s).getD 3 ""))) := by
  simp only [ArpTable.parse_from_string]
  rw [if_neg (by omega), hip]
  simp only [ne_eq, hdev, hll]
  simp

/-- Claim C3 witness: the real-world FAILED line without a `lladdr` field is
rejected. -/
theorem parse_missing_lladdr_fails_witness :
    ArpTable.parse_from_string "192.168.0.2 dev br-lan used 0/0/0 probes 6 FAILED"
      = .error (.NoLinkLayerAddr
          (rustToLowercase ((rustSplit ' '
            "192.168.0.2 dev br-lan used 0/0/0 probes 6 FAILED").getD 3 ""))) :=
  parse_missing_lladdr_fails
    "192.168.0.2 dev br-lan used 0/0/0 probes 6 FAILED" (IpAddr.V4 192 168 0 2)
    (by decide) (by decide) (by decide) (by decide)

/-- Claim C4: the IPv6 STALE sample line parses to the documented record. -/
theorem parse_scenario2_ipv6_stale :
    ArpTable.parse_from_string
      "fe80::1866:4ccf:140e:95b0 dev br-lan lladdr 1a:42:85:a2:22:fb used 0/0/0 probes 4 STALE"
      = .ok { ip := IpAddr.V6 [0xfe80, 0, 0, 0, 0x1866, 0x4ccf, 0x140e, 0x95b0],
              iface := "br-lan", mac_addr := "1a:42:85:a2:22:fb",
              nud_state := .STALE } ∧
    ipAddrToString (IpAddr.V6 [0xfe80, 0, 0, 0, 0x1866, 0x4ccf, 0x140e, 0x95b0])
      = "fe80::1866:4ccf:140e:95b0" :=
  ⟨by rfl, by rfl⟩

/-- Claim C5: a line splitting into fewer than six space-separated tokens fails
with the unexpected-string format error. -/
theorem parse_short_line_fails (s : String)
    (h : (rustSplit ' ' s).length < 6) :
    ArpTable.parse_from_string s = .error (.UnexpectedString s) := by
  simp only [ArpTable.parse_from_string]
  rw [if_pos h]

/-- Claim C5 witness: a two-token line is rejected. -/
theorem parse_short_line_fails_witness :
    (rustSplit ' ' "a b").length < 6 ∧
    ArpTable.parse_from_string "a b" = .error (.UnexpectedString "a b") :=
  ⟨by decide, parse_short_line_fails "a b" (by decide)⟩

/-- Claim C6: a successful parse assigns the state parsed from the final token;
each of the nine keywords, matched case-insensitively, yields its variant
and every other final token yields `UNKNOWN`. -/
theorem parse_nud_state_assignment (s t : String) (r : ArpTable)
    (hp : ArpTable.parse_from_string s = .ok r)
    (ht : t = (rustSplit ' ' s).getLastD "") :
    r.nud_state = parse_nud_from_str t ∧
    (rustToUppercase t = "PERMANENT" → parse_nud_from_str t = .PERMANENT) ∧
    (rustToUppercase t = "NOARP" → parse_nud_from_str t = .NOARP) ∧
    (rustToUppercase t = "REACHABLE" → parse_nud_from_str t = .REACHABLE) ∧
    (rustToUppercase t = "STALE" → parse_nud_from_str t = .STALE) ∧
    (rustToUppercase t = "NONE" → parse_nud_from_str t = .NONE) ∧
    (rustToUppercase t = "INCOMPLETE" → parse_nud_from_str t = .INCOMPLETE) ∧
    (rustToUppercase t = "DELAY" → parse_nud_from_str t = .DELAY) ∧
    (rustToUppercase t = "PROBE" → parse_nud_from_str t = .PROBE) ∧
    (rustToUppercase t = "FAILED" → parse_nud_from_str t = .FAILED) ∧
    (rustToUppercase t ∉ (["PERMANENT", "NOARP", "REACHABLE", "STALE", "NONE",
        "INCOMPLETE", "DELAY", "PROBE", "FAILED"] : List String) →
      parse_nud_from_str t = .UNKNOWN) := by
  refine ⟨ht ▸ (parse_from_string_ok_inv s r hp).2.2.2.2.2.2,
    ?_, ?_, ?_, ?_, ?_, ?_, ?_, ?_, ?_, ?_⟩
  · intro h; simp only [parse_nud_from_str, h]; decide
  · intro h; simp only [parse_nud_from_str, h]; decide
  · intro h; simp only [parse_nud_from_str, h]; decide
  · intro h; simp only [parse_nud_from_str, h]; decide
  · intro h; simp only [parse_nud_from_str, h]; decide
  · intro h; simp only [parse_nud_from_str, h]; decide
  · intro h; simp only [parse_nud_from_str, h]; decide
  · intro h; simp only [parse_nud_from_str, h]; decide
  · intro h; simp only [parse_nud_from_str, h]; decide
  · intro h
    simp only [List.mem_cons, List.not_mem_nil, or_false, not_or] at h
    obtain ⟨h1, h2, h3, h4, h5, h6, h7, h8, h9⟩ := h
    simp only [parse_nud_from_str]
    rw [if_neg h1, if_neg h2, if_neg h3, if_neg h4, if_neg h5, if_neg h6,
      if_neg h7, if_neg h8, if_neg h9]

/-- Claim C6 witness: the lowercase final token `probe` yields `PROBE`. -/
theorem parse_nud_state_assignment_witness :
    ({ ip := IpAddr.V4 1 2 3 4, iface := "e", mac_addr := "m", nud_state := .PROBE } : ArpTable).nud_state
      = parse_nud_from_str "probe" ∧
    parse_nud_from_str "probe" = .PROBE := by
  have h := parse_nud_state_assignment "1.2.3.4 dev e lladdr m x probe" "probe"
    { ip := IpAddr.V4 1 2 3 4, iface := "e", mac_addr := "m", nud_state := .PROBE }
    (by rfl) (by decide)
  exact ⟨h.1, h.2.2.2.2.2.2.2.2.1 (by decide)⟩

/-- Claim C7: a successfully parsed record preserves its fields from the input
line: the interface equals token 2 verbatim and the MAC equals token 4
lowercased on every such line, and the display form of the parsed IP equals
token 0 whenever that token is canonical. -/
theorem parse_preserves_fields (s : String) (r : ArpTable)
    (hp : ArpTable.parse_from_string s = .ok r) :
    (canonicalIpString ((rustSplit ' ' s).getD 0 "") →
      ipAddrToString r.ip = (rustSplit ' ' s).getD 0 "") ∧
    r.iface = (rustSplit ' ' s).getD 2 "" ∧
    r.mac_addr = rustToLowercase ((rustSplit ' ' s).getD 4 "") := by
  obtain ⟨hlen, hip, hdev, hiface, hll, hmac, hnud⟩ := parse_from_string_ok_inv s r hp
  refine ⟨?_, hiface, hmac⟩
  rintro ⟨ip0, hip0, hdisp⟩
  rw [hip0] at hip
  injection hip with hip
  exact hip ▸ hdisp

/-- Claim C7 witness: a line with a canonical IPv4 token round-trips all three
fields. -/
theorem parse_preserves_fields_witness :
    ipAddrToString ({ ip := IpAddr.V4 1 2 3 4, iface := "eth0", mac_addr := "aa:bb", nud_state := .STALE } : ArpTable).ip
      = (rustSplit ' ' "1.2.3.4 dev eth0 lladdr AA:BB x STALE").getD 0 "" ∧
    ({ ip := IpAddr.V4 1 2 3 4, iface := "eth0", mac_addr := "aa:bb", nud_state := .STALE } : ArpTable).iface
      = (rustSplit ' ' "1.2.3.4 dev eth0 lladdr AA:BB x STALE").getD 2 "" ∧
    ({ ip := IpAddr.V4 1 2 3 4, iface := "eth0", mac_addr := "aa:bb", nud_state := .STALE } : ArpTable).mac_addr
      = rustToLowercase ((rustSplit ' ' "1.2.3.4 dev eth0 lladdr AA:BB x STALE").getD 4 "") :=
  ⟨(parse_preserves_fields "1.2.3.4 dev eth0 lladdr AA:BB x STALE"
      { ip := IpAddr.V4 1 2 3 4, iface := "eth0", mac_addr := "aa:bb", nud_state := .STALE }
      (by rfl)).1 ⟨IpAddr.V4 1 2 3 4, by rfl, by rfl⟩,
   (parse_preserves_fields "1.2.3.4 dev eth0 lladdr AA:BB x STALE"
      { ip := IpAddr.V4 1 2 3 4, iface := "eth0", mac_addr := "aa:bb", nud_state := .STALE }
      (by rfl)).2⟩

/-- Claim C8: a launch that exits with non-zero status fails with `CommandError`
carrying the ASCII-lowercased stderr bytes, whatever the stdout was (so no
line is parsed). -/
theorem get_ip_neighbors_nonzero_exit (outB errB : List Nat) :
    get_ip_neighbors (.launched false outB errB)
      = some (.error (.CommandError (errB.map asciiLowerByte))) := by
  rfl

/-- Claim C9: a successful exit whose stdout bytes are not valid UTF-8 makes
`get_ip_neighbors` abort (the `none` of the model) instead of returning a
recoverable error. -/
theorem get_ip_neighbors_invalid_utf8_aborts (outB errB : List Nat)
    (h : utf8Decode outB = none) :
    get_ip_neighbors (.launched true outB errB) = none := by
  simp only [get_ip_neighbors, h]
  rw [if_neg (by simp)]

/-- Claim C9 witness: the single byte 0xFF is invalid UTF-8 and aborts. -/
theorem get_ip_neighbors_invalid_utf8_aborts_witness :
    utf8Decode [255] = none ∧
    get_ip_neighbors (.launched true [255] []) = none :=
  ⟨by decide, get_ip_neighbors_invalid_utf8_aborts [255] [] (by decide)⟩

/-- Claim C10: the line parser is total — it always returns a value, and once the
six-token check passes every positional access it performs (tokens 0-4 and
the last token) is within the token list. -/
theorem parse_from_string_total (s : String) :
    ((∃ r, ArpTable.parse_from_string s = .ok r) ∨
      (∃ e, ArpTable.parse_from_string s = .error e)) ∧
    (6 ≤ (rustSplit ' ' s).length →
      0 < (rustSplit ' ' s).length ∧ 1 < (rustSplit ' ' s).length ∧
      2 < (rustSplit ' ' s).length ∧ 3 < (rustSplit ' ' s).length ∧
      4 < (rustSplit ' ' s).length ∧ rustSplit ' ' s ≠ []) := by
  constructor
  · cases h : ArpTable.parse_from_string s with
    | ok r => exact Or.inl ⟨r, rfl⟩
    | error e => exact Or.inr ⟨e, rfl⟩
  · intro h
    refine ⟨by omega, by omega, by omega, by omega, by omega, ?_⟩
    intro hnil
    rw [hnil] at h
    simp at h

/-- Claim C10 witness: totality and in-bounds access on a six-token line. -/
theorem parse_from_string_total_witness :
    6 ≤ (rustSplit ' ' "a b c d e f").length ∧
    (0 < (rustSplit ' ' "a b c d e f").length ∧
     1 < (rustSplit ' ' "a b c d e f").length ∧
     2 < (rustSplit ' ' "a b c d e f").length ∧
     3 < (rustSplit ' ' "a b c d e f").length ∧
     4 < (rustSplit ' ' "a b c d e f").length ∧
     rustSplit ' ' "a b c d e f" ≠ []) :=
  ⟨by decide, (parse_from_string_total "a b c d e f").2 (by decide)⟩
